import Mathlib

/-!
Verification of the content-automation workflow core.

The development shallowly embeds the orchestration loop
(src/orchestrator/workflow.py), the brand-voice validator
(src/agents/brand_voice.py) and the tech-scout agent
(src/agents/tech_scout.py).  Python strings are modelled as `List Char`
or `String`, Python ints as `Nat`/`Int`, raised exceptions as
`Except String`, and the IEEE-754 double arithmetic used by the score
blend as exact dyadic rationals represented by scaled naturals with
explicit round-to-nearest-even.
-/

/-- Python considers these characters whitespace for `str.strip` and
`str.split()` (ASCII subset, which is all the texts here contain). -/
def isPySpace (c : Char) : Bool :=
  c = ' ' || c = '\t' || c = '\n' || c = '\x0d' || c = '\x0b' || c = '\x0c'

/-- Split a character list at every character satisfying `p`, keeping empty
fragments, exactly like Python `str.split(sep)` splits at every separator. -/
def splitWhen (p : Char → Bool) : List Char → List (List Char)
  | [] => [[]]
  | c :: cs =>
    match splitWhen p cs with
    | [] => [[]]
    | w :: ws => if p c then [] :: w :: ws else (c :: w) :: ws

/-- Model of Python `str.strip()`: drop whitespace from both ends. -/
def stripChars (s : List Char) : List Char :=
  ((s.dropWhile isPySpace).reverse.dropWhile isPySpace).reverse

/-- Model of Python no-argument `str.split()`: whitespace-separated words. -/
def wordsOf (s : List Char) : List (List Char) :=
  (splitWhen isPySpace s).filter (fun w => w ≠ [])

/-- Model of Python `str.lower()` on the ASCII texts considered here. -/
def lowerStr (s : List Char) : List Char :=
  s.map Char.toLower

/-- Tests whether the first list is a leading segment of the second. -/
def startsWith : List Char → List Char → Bool
  | [], _ => true
  | _ :: _, [] => false
  | a :: as, b :: bs => a = b && startsWith as bs

/-- Model of Python substring containment `needle in hay`. -/
def containsSub (needle : List Char) : List Char → Bool
  | [] => startsWith needle []
  | c :: cs => startsWith needle (c :: cs) || containsSub needle cs

/-- Brand-voice profile fields read by `BrandVoiceAgent._heuristic_check`. -/
structure BrandVoice where
  signature_phrases : List (List Char)
  avoid : List (List Char)

/-- Embedding of `BrandVoiceAgent._heuristic_check` from
src/agents/brand_voice.py: base 70, sentence-length adjustment from a split
on the period character, +5 per signature phrase capped at +15, -5 per
avoided term uncapped, clamped to [0, 100].  The mean-length comparisons
`avg < 15` and `avg > 25` are expressed multiplicatively, which agrees with
the source for every list of sentences. -/
def heuristic_check (bv : BrandVoice) (script : List Char) : Int :=
  let sentences :=
    ((splitWhen (fun c => c = '.') script).map stripChars).filter (fun s => s ≠ [])
  if sentences.length = 0 then 70
  else
    let totalWords := (sentences.map (fun s => (wordsOf s).length)).sum
    let n := sentences.length
    let score : Int :=
      if totalWords < 15 * n then 70 + 10
      else if 25 * n < totalWords then 70 - 10
      else 70
    let found_phrases :=
      (bv.signature_phrases.filter
        (fun phrase => containsSub (lowerStr phrase) (lowerStr script))).length
    let score := score + min (5 * (found_phrases : Int)) 15
    let found_bad :=
      (bv.avoid.filter
        (fun bad => containsSub (lowerStr bad) (lowerStr script))).length
    let score := score - 5 * (found_bad : Int)
    max 0 (min 100 score)

/-- The scoring algorithm exactly as the claim words it, parameterized by the
sentence-splitting predicate (the claim says sentence-terminal punctuation,
the source uses only the period).  The mean sentence length is taken
literally as a rational mean. -/
def heuristicAlg (isEnd : Char → Bool) (bv : BrandVoice) (script : List Char) : Int :=
  let sentences :=
    ((splitWhen isEnd script).map stripChars).filter (fun s => s ≠ [])
  if sentences.length = 0 then 70
  else
    let totalWords := (sentences.map (fun s => (wordsOf s).length)).sum
    let n := sentences.length
    let mean : ℚ := (totalWords : ℚ) / (n : ℚ)
    let score : Int :=
      if mean < 15 then 70 + 10
      else if 25 < mean then 70 - 10
      else 70
    let found_phrases :=
      (bv.signature_phrases.filter
        (fun phrase => containsSub (lowerStr phrase) (lowerStr script))).length
    let score := score + min (5 * (found_phrases : Int)) 15
    let found_bad :=
      (bv.avoid.filter
        (fun bad => containsSub (lowerStr bad) (lowerStr script))).length
    let score := score - 5 * (found_bad : Int)
    max 0 (min 100 score)

/-- Sentence-terminal punctuation in the usual sense of the claim. -/
def sentenceEnd (c : Char) : Bool :=
  c = '.' || c = '!' || c = '?'

/-- Number of binary digits of `n`, with enough fuel for every quantity
appearing in the score blend (all are far below 2 ^ 128). -/
def bitLenAux : Nat → Nat → Nat
  | 0, _ => 0
  | fuel + 1, n => if n = 0 then 0 else bitLenAux fuel (n / 2) + 1

/-- Binary length of a natural number below 2 ^ 128. -/
def bitLen (n : Nat) : Nat := bitLenAux 128 n

/-- Round a dyadic value (a natural number at a fixed power-of-two scale) to
53 significant bits, ties to even: the IEEE-754 double-precision rounding
applied by every Python float operation. -/
def roundSig (N : Nat) : Nat :=
  let L := bitLen N
  if L ≤ 53 then N
  else
    let k := L - 53
    let q := N / 2 ^ k
    let r := N % 2 ^ k
    let half := 2 ^ (k - 1)
    let m :=
      if r < half then q
      else if half < r then q + 1
      else if q % 2 = 0 then q else q + 1
    m * 2 ^ k

/-- The double nearest to 0.4, at scale 2 ^ 60. -/
def w04 : Nat := 7205759403792794 * 64

/-- The double nearest to 0.6, at scale 2 ^ 60. -/
def w06 : Nat := 5404319552844595 * 128

/-- Embedding of `int(0.4 * heuristic_score + 0.6 * semantic_score)` from
`BrandVoiceAgent.validate_script`: each float product and the float sum is
rounded to double precision, and `int` truncates (floors, as the value is
nonnegative).  All quantities are exact dyadic rationals at scale 2 ^ 60. -/
def scoreBlend (h s : Nat) : Nat :=
  roundSig (roundSig (w04 * h) + roundSig (w06 * s)) / 2 ^ 60

/-- Structured semantic-scorer reply (`BrandScoreResponse` in
src/agents/brand_voice.py). -/
structure BrandScoreResponse where
  score : Nat
  reasoning : String
  strengths : List String
  weaknesses : List String
  suggestions : List String

/-- Result dictionary of `BrandVoiceAgent.validate_script`. -/
structure ValidationResult where
  score : Nat
  heuristic_score : Int
  llm_score : Nat
  reasoning : String
  strengths : List String
  weaknesses : List String
  suggestions : List String

/-- Embedding of `BrandVoiceAgent.validate_script`, with the semantic
collaborator reply passed in as data: heuristic check, then the fixed
40/60 blend. -/
def validate_script (bv : BrandVoice) (script : List Char)
    (semantic : BrandScoreResponse) : ValidationResult :=
  let heuristic_score := heuristic_check bv script
  let final_score := scoreBlend heuristic_score.toNat semantic.score
  { score := final_score
    heuristic_score := heuristic_score
    llm_score := semantic.score
    reasoning := semantic.reasoning
    strengths := semantic.strengths
    weaknesses := semantic.weaknesses
    suggestions := semantic.suggestions }

/-- The refinement decision of `validate_node` (workflow.py lines 141-145):
`state['brand_score'] < 75 and state['iteration'] < 2`. -/
def shouldRefineFlag (brand_score : Nat) (iteration : Nat) : Bool :=
  decide (brand_score < 75) && decide (iteration < 2)

/-- The `WorkflowState` TypedDict of src/orchestrator/workflow.py. -/
structure WorkflowState where
  topic : Option String
  format_type : String
  research_brief : Option String
  research_sources : Option (List String)
  draft_script : Option String
  brand_score : Option Nat
  heuristic_score : Option Int
  llm_score : Option Nat
  validation_reasoning : Option String
  validation_strengths : Option (List String)
  validation_weaknesses : Option (List String)
  validation_suggestions : Option (List String)
  final_script : Option String
  iteration : Nat
  should_refine : Bool
  errors : List String
  execution_mode : String

/-- Result dictionary of `TechScoutAgent.research_topic`. -/
structure ResearchResult where
  topic : String
  brief : String
  sources : List String
  mode : String

/-- The conditional-edge function `should_refine` of workflow.py
(lines 204-214); `true` stands for the string "refine" and `false` for END. -/
def should_refine_edge (st : WorkflowState) : Bool :=
  st.should_refine && decide (st.iteration < 2)

/-- External collaborators of one workflow run.  `research` is the outcome of
the single `scout.research_topic` call; `generate` and `semantic` give the
outcome of the n-th generation call (with prompt and format) and of the n-th
structured semantic-scoring call (with the draft); `Except.error` models a
raised exception carrying `str(e)`. -/
structure RunEnv where
  research : Except String ResearchResult
  generate : Nat → String → String → Except String String
  semantic : Nat → String → Except String BrandScoreResponse
  brand_voice : BrandVoice

/-- Control location of the LangGraph engine between node executions. -/
inductive Phase
  | scout
  | draft
  | validate
  | refine
  | done
  | failed
deriving DecidableEq

/-- One run in flight: current phase, the mutable `WorkflowState`, counters
of collaborator calls and of Refine executions, and the pending exception
message once a node has raised. -/
structure Config where
  phase : Phase
  st : WorkflowState
  genCalls : Nat
  valCalls : Nat
  refineExecs : Nat
  raised : Option String

/-- A node that raised: the node appended `pre ++ msg` to `errors` and
re-raised, which forces the run to its terminal error path. -/
def failWith (c : Config) (pre msg : String) : Config :=
  { c with phase := .failed
           st := { c.st with errors := c.st.errors ++ [pre ++ msg] }
           raised := some msg }

/-- Python truthiness test `not state.get(field)` for an optional string. -/
def falsyOpt : Option String → Bool
  | none => true
  | some s => s = ""

/-- Embedding of `scout_node`: store brief, sources, mode and topic from the
research collaborator, or record `Scout error: ...` and re-raise. -/
def scout_node (env : RunEnv) (c : Config) : Config :=
  match env.research with
  | .error e => failWith c "Scout error: " e
  | .ok r =>
    { c with phase := .draft
             st := { c.st with research_brief := some r.brief
                               research_sources := some r.sources
                               execution_mode := r.mode
                               topic := some r.topic } }

/-- Embedding of `draft_node`: require a truthy research brief, then call the
generation collaborator and store the draft. -/
def draft_node (env : RunEnv) (c : Config) : Config :=
  if falsyOpt c.st.research_brief then
    failWith c "Writer error: " "No research brief available for script generation"
  else
    match env.generate c.genCalls (c.st.research_brief.getD "") c.st.format_type with
    | .error e => failWith { c with genCalls := c.genCalls + 1 } "Writer error: " e
    | .ok script =>
      { c with phase := .validate
               genCalls := c.genCalls + 1
               st := { c.st with draft_script := some script } }

/-- The state written by `validate_node` on success: all validation fields
from the `validate_script` result, plus the `should_refine` decision flag. -/
def validatedState (bv : BrandVoice) (st : WorkflowState) (d : String)
    (sem : BrandScoreResponse) : WorkflowState :=
  let r := validate_script bv d.toList sem
  { st with brand_score := some r.score
            heuristic_score := some r.heuristic_score
            llm_score := some r.llm_score
            validation_reasoning := some r.reasoning
            validation_strengths := some r.strengths
            validation_weaknesses := some r.weaknesses
            validation_suggestions := some r.suggestions
            should_refine := shouldRefineFlag r.score st.iteration }

/-- Embedding of `validate_node` together with the conditional edge taken on
its result: require a truthy draft, score it with `validate_script`, store
all validation fields, set `should_refine`, and move to Refine exactly when
the edge function selects "refine". -/
def validate_node (env : RunEnv) (c : Config) : Config :=
  match c.st.draft_script with
  | none => failWith c "Validator error: " "No draft script available for validation"
  | some d =>
    if d = "" then
      failWith c "Validator error: " "No draft script available for validation"
    else
      match env.semantic c.valCalls d with
      | .error e => failWith { c with valCalls := c.valCalls + 1 } "Validator error: " e
      | .ok sem =>
        let st := validatedState env.brand_voice c.st d sem
        { c with phase := if should_refine_edge st then .refine else .done
                 valCalls := c.valCalls + 1
                 st := st }

/-- The composite refinement prompt built by `refine_node` from validator
feedback and the current draft. -/
def refinementPrompt (st : WorkflowState) : String :=
  "Previous script feedback: Weaknesses: "
    ++ String.intercalate "\n" ((st.validation_weaknesses.getD []).map (fun w => "- " ++ w))
    ++ " Suggestions for improvement: "
    ++ String.intercalate "\n" ((st.validation_suggestions.getD []).map (fun s => "- " ++ s))
    ++ " Original script to refine: "
    ++ st.draft_script.getD ""

/-- Embedding of `refine_node`: increment `iteration` first, require a truthy
draft, then regenerate from the feedback prompt and overwrite the draft. -/
def refine_node (env : RunEnv) (c : Config) : Config :=
  let c1 := { c with st := { c.st with iteration := c.st.iteration + 1 }
                     refineExecs := c.refineExecs + 1 }
  if falsyOpt c1.st.draft_script then
    failWith c1 "Refine error: " "No draft script to refine"
  else
    match env.generate c1.genCalls (refinementPrompt c1.st) c1.st.format_type with
    | .error e => failWith { c1 with genCalls := c1.genCalls + 1 } "Refine error: " e
    | .ok script =>
      { c1 with phase := .validate
                genCalls := c1.genCalls + 1
                st := { c1.st with draft_script := some script } }

/-- One engine transition of the compiled graph; `done` and `failed` are
terminal. -/
def step (env : RunEnv) (c : Config) : Config :=
  match c.phase with
  | .scout => scout_node env c
  | .draft => draft_node env c
  | .validate => validate_node env c
  | .refine => refine_node env c
  | .done => c
  | .failed => c

/-- Iterated engine transitions. -/
def iterN (env : RunEnv) : Nat → Config → Config
  | 0, c => c
  | n + 1, c => iterN env n (step env c)

/-- The initial state built by `run_workflow` (workflow.py lines 323-341). -/
def initState (topic : Option String) (format_type : String) : WorkflowState :=
  { topic := topic
    format_type := format_type
    research_brief := none
    research_sources := none
    draft_script := none
    brand_score := none
    heuristic_score := none
    llm_score := none
    validation_reasoning := none
    validation_strengths := none
    validation_weaknesses := none
    validation_suggestions := none
    final_script := none
    iteration := 0
    should_refine := false
    errors := []
    execution_mode := "live" }

/-- The engine starts at Scout with the fresh state and no calls made. -/
def initConfig (topic : Option String) (format_type : String) : Config :=
  { phase := .scout
    st := initState topic format_type
    genCalls := 0
    valCalls := 0
    refineExecs := 0
    raised := none }

/-- Embedding of `run_workflow`: drive the graph to its terminal phase
(eight transitions always suffice, see `iterN_eight_terminal`); on normal
completion copy the draft into `final_script`, on the exception path append
the fatal message and leave `final_script` unset. -/
def run_workflow (env : RunEnv) (topic : Option String) (format_type : String) :
    WorkflowState :=
  let c := iterN env 8 (initConfig topic format_type)
  match c.phase with
  | .done => { c.st with final_script := c.st.draft_script }
  | _ =>
    { c.st with final_script := none
                errors := c.st.errors ++ ["Workflow fatal error: " ++ c.raised.getD ""] }

/-- One trending item as delivered by the HackerNews scraper or the cache. -/
structure HNItem where
  id : Nat
  title : String
  score : Nat
  url : String

/-- Outcome of the background `get_trending_hn` worker within the 5-second
deadline of `_get_trending_safe`: it produced a list, raised, or is still
running when the join times out. -/
inductive FetchOutcome
  | ok : List HNItem → FetchOutcome
  | raised : String → FetchOutcome
  | timeout : FetchOutcome

/-- Collaborator behaviour of one `TechScoutAgent.research_topic` call. -/
structure ScoutEnv where
  demo_mode : Bool
  fetch : FetchOutcome
  cached : Except String (List HNItem)
  selectResp : Except String String
  briefResp : Except String String

/-- Model of Python `str.strip()` on `String`. -/
def pyStripS (s : String) : String :=
  ⟨stripChars s.toList⟩

/-- Embedding of `TechScoutAgent._get_trending_safe`: cached data in demo
mode; otherwise the live fetch, falling back to the cached list when the
worker timed out, raised, or returned a falsy result. -/
def get_trending_safe (e : ScoutEnv) : Except String (List HNItem) :=
  if e.demo_mode then e.cached
  else
    match e.fetch with
    | .timeout => e.cached
    | .raised _ => e.cached
    | .ok l => if l.isEmpty then e.cached else .ok l

/-- Embedding of `TechScoutAgent._select_best_topic`; the Boolean records
whether the selection LLM was called.  An empty candidate list short-circuits
to the hardcoded default topic without any collaborator call; otherwise the
LLM reply is stripped. -/
def select_best_topic (e : ScoutEnv) (trending_items : List HNItem) :
    Except String String × Bool :=
  if trending_items.isEmpty then
    (.ok "The Latest JavaScript Framework Nobody Asked For", false)
  else
    (e.selectResp.map pyStripS, true)

/-- Embedding of `TechScoutAgent.research_topic`: with a falsy topic,
discover one (mode becomes "cached" exactly when `demo_mode` is set, since
the fallback list is never empty on success); then research it.  `sources`
is always the empty list. -/
def research_topic (e : ScoutEnv) (topic : Option String) :
    Except String ResearchResult :=
  let given := match topic with
    | none => none
    | some t => if t = "" then none else some t
  match given with
  | some t =>
    match e.briefResp with
    | .error err => .error err
    | .ok brief => .ok { topic := t, brief := brief, sources := [], mode := "live" }
  | none =>
    match get_trending_safe e with
    | .error err => .error err
    | .ok trending =>
      let mode :=
        if e.demo_mode || decide (0 < trending.length) then
          (if e.demo_mode then "cached" else "live")
        else "live"
      match (select_best_topic e trending).1 with
      | .error err => .error err
      | .ok t =>
        match e.briefResp with
        | .error err => .error err
        | .ok brief => .ok { topic := t, brief := brief, sources := [], mode := mode }

/-- The claim's scoring algorithm with the mean comparison expressed
multiplicatively; agrees with `heuristicAlg` (see `heuristicAlg_eq_int`) and,
at the period predicate, is definitionally `heuristic_check`. -/
def heuristicAlgInt (isEnd : Char → Bool) (bv : BrandVoice) (script : List Char) : Int :=
  let sentences :=
    ((splitWhen isEnd script).map stripChars).filter (fun s => s ≠ [])
  if sentences.length = 0 then 70
  else
    let totalWords := (sentences.map (fun s => (wordsOf s).length)).sum
    let n := sentences.length
    let score : Int :=
      if totalWords < 15 * n then 70 + 10
      else if 25 * n < totalWords then 70 - 10
      else 70
    let found_phrases :=
      (bv.signature_phrases.filter
        (fun phrase => containsSub (lowerStr phrase) (lowerStr script))).length
    let score := score + min (5 * (found_phrases : Int)) 15
    let found_bad :=
      (bv.avoid.filter
        (fun bad => containsSub (lowerStr bad) (lowerStr script))).length
    let score := score - 5 * (found_bad : Int)
    max 0 (min 100 score)

/-- A run is over once the engine is in `done` or on the error path. -/
def Terminal (c : Config) : Prop :=
  c.phase = .done ∨ c.phase = .failed

/-- Run invariant: the iteration counter respects the refinement cap, it
counts exactly the Refine executions, Refine is only ever entered strictly
below the cap (so its increment cannot exceed it), and `done` is reached
only with a truthy draft. -/
def EngineInv (c : Config) : Prop :=
  c.st.iteration ≤ 2 ∧
  c.refineExecs = c.st.iteration ∧
  (c.phase = .refine → c.st.iteration < 2) ∧
  (c.phase = .done → c.st.draft_script ≠ none ∧ c.st.draft_script ≠ some "")

/-- Upper bound on the number of transitions left before the run is
terminal; strictly decreasing along `step` on invariant configurations. -/
def stepsLeft (c : Config) : Nat :=
  match c.phase with
  | .scout => 7
  | .draft => 6
  | .validate => 2 * (2 - c.st.iteration) + 1
  | .refine => 2 * (2 - c.st.iteration)
  | .done => 0
  | .failed => 0

/-- Profile with no signature phrases and no avoided terms. -/
def bvEmpty : BrandVoice := ⟨[], []⟩

/-- Text of 26 one-letter words punctuated only with exclamation marks: one
long sentence for a period split, 26 one-word sentences for a
sentence-terminal split. -/
def textBang : List Char :=
  String.toList
    "a! b! c! d! e! f! g! h! i! j! k! l! m! n! o! p! q! r! s! t! u! v! w! x! y! z!"

/-- Scenario text: three period-terminated sentences of ten words each. -/
def textScenA : List Char :=
  String.toList
    ("alpha beta gamma delta epsilon zeta eta theta iota kappa. "
      ++ "lambda mu nu xi omicron pi rho sigma tau upsilon. "
      ++ "phi chi psi omega one two three four five six.")

/-- Scenario profile: two signature phrases present in `textScenA`, nothing
avoided. -/
def bvScenA : BrandVoice :=
  ⟨[String.toList "alpha beta", String.toList "phi chi"], []⟩

/-- A semantic-scorer reply with score 80 and empty feedback. -/
def bsr80 : BrandScoreResponse := ⟨80, "ok", [], [], []⟩

/-- Collaborators whose research reply carries an empty brief and which
otherwise always succeed. -/
def envEmptyBrief : RunEnv :=
  { research := .ok ⟨"T", "", [], "live"⟩
    generate := fun _ _ _ => .ok "script text"
    semantic := fun _ _ => .ok bsr80
    brand_voice := bvEmpty }

/-- Collaborators that always succeed with a scoring of 80. -/
def envOk : RunEnv :=
  { research := .ok ⟨"T", "brief text", [], "live"⟩
    generate := fun _ _ _ => .ok "good script"
    semantic := fun _ _ => .ok bsr80
    brand_voice := bvEmpty }

/-- One cached trending item. -/
def item1 : HNItem := ⟨1, "Cached Topic", 100, "https://example.com"⟩

/-- A live-mode scout whose candidate fetch always times out and whose cache
and LLM calls succeed. -/
def scTimeout : ScoutEnv :=
  { demo_mode := false
    fetch := .timeout
    cached := .ok [item1]
    selectResp := .ok "Cached Topic"
    briefResp := .ok "some brief" }

/-- Engine collaborators whose research outcome is produced by the
timed-out-fetch scout `scTimeout`. -/
def envTimeout : RunEnv :=
  { research := research_topic scTimeout none
    generate := fun _ _ _ => .ok "script text"
    semantic := fun _ _ => .ok bsr80
    brand_voice := bvEmpty }

theorem heuristic_check_nonneg (bv : BrandVoice) (script : List Char) :
    0 ≤ heuristic_check bv script := by
  simp only [heuristic_check]
  split
  · norm_num
  · exact le_max_left 0 _

theorem heuristic_check_le (bv : BrandVoice) (script : List Char) :
    heuristic_check bv script ≤ 100 := by
  simp only [heuristic_check]
  split
  · norm_num
  · exact max_le (by norm_num) (min_le_left _ _)

theorem heuristicAlg_eq_int (isEnd : Char → Bool) (bv : BrandVoice) (script : List Char) :
    heuristicAlg isEnd bv script = heuristicAlgInt isEnd bv script := by
  simp only [heuristicAlg, heuristicAlgInt]
  set sentences := ((splitWhen isEnd script).map stripChars).filter (fun s => s ≠ [])
  split
  · rfl
  · rename_i hne
    set total := (sentences.map (fun s => (wordsOf s).length)).sum
    have hn : 0 < ((sentences.length : ℚ)) := by
      exact_mod_cast Nat.pos_of_ne_zero hne
    have h1 : ((total : ℚ) / (sentences.length : ℚ) < 15) ↔ (total < 15 * sentences.length) := by
      rw [div_lt_iff₀ hn]
      norm_cast
    have h2 : (25 < (total : ℚ) / (sentences.length : ℚ)) ↔ (25 * sentences.length < total) := by
      rw [lt_div_iff₀ hn]
      norm_cast
    rw [if_congr h1 rfl (if_congr h2 rfl rfl)]

theorem step_eq_scout (env : RunEnv) (c : Config) (h : c.phase = .scout) :
    step env c = scout_node env c := by
  simp [step, h]

theorem step_eq_draft (env : RunEnv) (c : Config) (h : c.phase = .draft) :
    step env c = draft_node env c := by
  simp [step, h]

theorem step_eq_validate (env : RunEnv) (c : Config) (h : c.phase = .validate) :
    step env c = validate_node env c := by
  simp [step, h]

theorem step_eq_refine (env : RunEnv) (c : Config) (h : c.phase = .refine) :
    step env c = refine_node env c := by
  simp [step, h]

theorem step_eq_done (env : RunEnv) (c : Config) (h : c.phase = .done) :
    step env c = c := by
  simp [step, h]

theorem step_eq_failed (env : RunEnv) (c : Config) (h : c.phase = .failed) :
    step env c = c := by
  simp [step, h]

theorem scout_node_spec (env : RunEnv) (c : Config) :
    (scout_node env c).st.iteration = c.st.iteration ∧
    (scout_node env c).refineExecs = c.refineExecs ∧
    (scout_node env c).st.draft_script = c.st.draft_script ∧
    ((scout_node env c).phase = .draft ∨ (scout_node env c).phase = .failed) := by
  cases h : env.research with
  | error e => simp [scout_node, h, failWith]
  | ok r => simp [scout_node, h]

theorem draft_node_spec (env : RunEnv) (c : Config) :
    (draft_node env c).st.iteration = c.st.iteration ∧
    (draft_node env c).refineExecs = c.refineExecs ∧
    ((draft_node env c).phase = .validate ∨ (draft_node env c).phase = .failed) := by
  by_cases hf : falsyOpt c.st.research_brief = true
  · simp [draft_node, hf, failWith]
  · cases hg : env.generate c.genCalls (c.st.research_brief.getD "") c.st.format_type with
    | error e => simp [draft_node, hf, hg, failWith]
    | ok s => simp [draft_node, hf, hg]

theorem refine_node_spec (env : RunEnv) (c : Config) :
    (refine_node env c).st.iteration = c.st.iteration + 1 ∧
    (refine_node env c).refineExecs = c.refineExecs + 1 ∧
    ((refine_node env c).phase = .validate ∨ (refine_node env c).phase = .failed) := by
  by_cases hf : falsyOpt c.st.draft_script = true
  · simp [refine_node, hf, failWith]
  · cases hg : env.generate c.genCalls
      (refinementPrompt { c.st with iteration := c.st.iteration + 1 })
      c.st.format_type with
    | error e => simp [refine_node, hf, hg, failWith]
    | ok s => simp [refine_node, hf, hg]

theorem validate_node_spec (env : RunEnv) (c : Config) :
    (validate_node env c).st.iteration = c.st.iteration ∧
    (validate_node env c).refineExecs = c.refineExecs ∧
    (((validate_node env c).phase = .refine ∧ c.st.iteration < 2) ∨
      (validate_node env c).phase = .failed ∨
      ((validate_node env c).phase = .done ∧
        (validate_node env c).st.draft_script = c.st.draft_script ∧
        c.st.draft_script ≠ none ∧ c.st.draft_script ≠ some "")) := by
  cases hd : c.st.draft_script with
  | none => simp [validate_node, hd, failWith]
  | some d =>
    by_cases hde : d = ""
    · simp [validate_node, hd, hde, failWith]
    · cases hsem : env.semantic c.valCalls d with
      | error e => simp [validate_node, hd, hde, hsem, failWith]
      | ok sem =>
        by_cases hb : should_refine_edge (validatedState env.brand_voice c.st d sem) = true
        · have hiter : c.st.iteration < 2 := by
            simp only [should_refine_edge, Bool.and_eq_true, decide_eq_true_eq] at hb
            have hit : (validatedState env.brand_voice c.st d sem).iteration = c.st.iteration := by
              simp [validatedState]
            exact hit ▸ hb.2
          exact ⟨by simp [validate_node, hd, hde, hsem, validatedState],
            by simp [validate_node, hd, hde, hsem],
            Or.inl ⟨by simp [validate_node, hd, hde, hsem, hb], hiter⟩⟩
        · exact ⟨by simp [validate_node, hd, hde, hsem, validatedState],
            by simp [validate_node, hd, hde, hsem],
            Or.inr (Or.inr ⟨by simp [validate_node, hd, hde, hsem, hb],
              by simp [validate_node, hd, hde, hsem, validatedState],
              by simp [hd], by simp [hd, hde]⟩)⟩





theorem initConfig_inv (t : Option String) (f : String) : EngineInv (initConfig t f) := by
  refine ⟨by simp [initConfig, initState], by simp [initConfig, initState], ?_, ?_⟩
  · intro h
    simp [initConfig] at h
  · intro h
    simp [initConfig] at h

theorem step_preserves_inv (env : RunEnv) (c : Config) (h : EngineInv c) :
    EngineInv (step env c) := by
  obtain ⟨h1, h2, h3, h4⟩ := h
  cases hp : c.phase
  case scout =>
    rw [step_eq_scout env c hp]
    obtain ⟨s1, s2, _, s4⟩ := scout_node_spec env c
    rcases s4 with s4 | s4 <;>
      exact ⟨by omega, by omega, by simp [s4], by simp [s4]⟩
  case draft =>
    rw [step_eq_draft env c hp]
    obtain ⟨s1, s2, s4⟩ := draft_node_spec env c
    rcases s4 with s4 | s4 <;>
      exact ⟨by omega, by omega, by simp [s4], by simp [s4]⟩
  case validate =>
    rw [step_eq_validate env c hp]
    obtain ⟨s1, s2, s4⟩ := validate_node_spec env c
    rcases s4 with ⟨s4, slt⟩ | s4 | ⟨s4, sd, sn, se⟩
    · exact ⟨by omega, by omega, fun _ => by omega, by simp [s4]⟩
    · exact ⟨by omega, by omega, by simp [s4], by simp [s4]⟩
    · exact ⟨by omega, by omega, by simp [s4], fun _ => by rw [sd]; exact ⟨sn, se⟩⟩
  case refine =>
    rw [step_eq_refine env c hp]
    obtain ⟨s1, s2, s4⟩ := refine_node_spec env c
    have hlt : c.st.iteration < 2 := h3 hp
    rcases s4 with s4 | s4 <;>
      exact ⟨by omega, by omega, by simp [s4], by simp [s4]⟩
  case done =>
    rw [step_eq_done env c hp]
    exact ⟨h1, h2, h3, h4⟩
  case failed =>
    rw [step_eq_failed env c hp]
    exact ⟨h1, h2, h3, h4⟩

theorem iterN_inv (env : RunEnv) (n : Nat) (c : Config) (h : EngineInv c) :
    EngineInv (iterN env n c) := by
  induction n generalizing c with
  | zero => exact h
  | succ k ih => exact ih (step env c) (step_preserves_inv env c h)

theorem step_terminal_fix (env : RunEnv) (c : Config) (h : Terminal c) : step env c = c := by
  rcases h with h | h
  · exact step_eq_done env c h
  · exact step_eq_failed env c h

theorem iterN_terminal_fix (env : RunEnv) (n : Nat) (c : Config) (h : Terminal c) :
    iterN env n c = c := by
  induction n with
  | zero => rfl
  | succ k ih => rw [iterN, step_terminal_fix env c h, ih]

theorem stepsLeft_decrease (env : RunEnv) (c : Config) (hinv : EngineInv c)
    (hnt : ¬Terminal c) : stepsLeft (step env c) < stepsLeft c := by
  obtain ⟨h1, h2, h3, h4⟩ := hinv
  cases hp : c.phase
  case scout =>
    rw [step_eq_scout env c hp]
    obtain ⟨s1, s2, _, s4⟩ := scout_node_spec env c
    rcases s4 with s4 | s4 <;> simp [stepsLeft, s4, hp]
  case draft =>
    rw [step_eq_draft env c hp]
    obtain ⟨s1, s2, s4⟩ := draft_node_spec env c
    rcases s4 with s4 | s4
    · simp [stepsLeft, s4, hp, s1]
      omega
    · simp [stepsLeft, s4, hp, s1]
  case validate =>
    rw [step_eq_validate env c hp]
    obtain ⟨s1, s2, s4⟩ := validate_node_spec env c
    rcases s4 with ⟨s4, slt⟩ | s4 | ⟨s4, _, _, _⟩ <;> simp [stepsLeft, s4, hp, s1]
  case refine =>
    rw [step_eq_refine env c hp]
    obtain ⟨s1, s2, s4⟩ := refine_node_spec env c
    have hlt : c.st.iteration < 2 := h3 hp
    rcases s4 with s4 | s4 <;> · simp [stepsLeft, s4, hp, s1]; omega
  case done => exact absurd (Or.inl hp) hnt
  case failed => exact absurd (Or.inr hp) hnt

theorem iterN_terminal_of_fuel (env : RunEnv) :
    ∀ (k : Nat) (c : Config), EngineInv c → stepsLeft c ≤ k → Terminal (iterN env k c) := by
  intro k
  induction k with
  | zero =>
    intro c hinv hle
    obtain ⟨h1, h2, h3, h4⟩ := hinv
    cases hp : c.phase
    case scout => simp [stepsLeft, hp] at hle
    case draft => simp [stepsLeft, hp] at hle
    case validate => simp [stepsLeft, hp] at hle
    case refine =>
      have := h3 hp
      simp [stepsLeft, hp] at hle
      omega
    case done => exact Or.inl hp
    case failed => exact Or.inr hp
  | succ k ih =>
    intro c hinv hle
    by_cases ht : Terminal c
    · rw [iterN, step_terminal_fix env c ht]
      have : stepsLeft c = 0 := by
        rcases ht with h | h <;> simp [stepsLeft, h]
      exact ih c hinv (by omega)
    · rw [iterN]
      have hdec := stepsLeft_decrease env c hinv ht
      exact ih (step env c) (step_preserves_inv env c hinv) (by omega)

theorem iterN_eight_terminal (env : RunEnv) (t : Option String) (f : String) :
    Terminal (iterN env 8 (initConfig t f)) := by
  apply iterN_terminal_of_fuel env 8 (initConfig t f) (initConfig_inv t f)
  simp [stepsLeft, initConfig]

theorem bitLenAux_zero (fuel : Nat) : bitLenAux fuel 0 = 0 := by
  cases fuel <;> simp [bitLenAux]

theorem bitLenAux_spec (fuel : Nat) :
    ∀ n : Nat, n < 2 ^ fuel →
      n < 2 ^ bitLenAux fuel n ∧ (n ≠ 0 → ∃ L, bitLenAux fuel n = L + 1 ∧ 2 ^ L ≤ n) := by
  induction fuel with
  | zero =>
    intro n h
    have hn0 : n = 0 := by simpa using Nat.lt_one_iff.mp h
    subst hn0
    exact ⟨by simp [bitLenAux], fun hn => absurd rfl hn⟩
  | succ k ih =>
    intro n h
    by_cases hn : n = 0
    · subst hn
      exact ⟨by simp [bitLenAux_zero], fun hh => absurd rfl hh⟩
    · have h2 : (2 : Nat) ^ (k + 1) = 2 * 2 ^ k := by ring
      have hdiv : n / 2 < 2 ^ k := by omega
      obtain ⟨ih1, ih2⟩ := ih (n / 2) hdiv
      have hb : bitLenAux (k + 1) n = bitLenAux k (n / 2) + 1 := by
        simp [bitLenAux, hn]
      refine ⟨?_, fun _ => ⟨bitLenAux k (n / 2), hb, ?_⟩⟩
      · rw [hb]
        have h3 : (2 : Nat) ^ (bitLenAux k (n / 2) + 1) = 2 * 2 ^ bitLenAux k (n / 2) := by
          ring
        omega
      · by_cases h0 : n / 2 = 0
        · have hn1 : n = 1 := by omega
          rw [h0, bitLenAux_zero, hn1]
          simp
        · obtain ⟨L, hL1, hL2⟩ := ih2 h0
          rw [hL1]
          have h4 : (2 : Nat) ^ (L + 1) = 2 * 2 ^ L := by ring
          omega

theorem bitLen_le (n L : Nat) (hn : n < 2 ^ L) (hL : L ≤ 128) : bitLen n ≤ L := by
  by_cases h0 : n = 0
  · subst h0
    simp [bitLen, bitLenAux_zero]
  · have h128 : n < 2 ^ 128 :=
      lt_of_lt_of_le hn (Nat.pow_le_pow_right (by norm_num) hL)
    obtain ⟨K, hK1, hK2⟩ := (bitLenAux_spec 128 n h128).2 h0
    by_contra hcon
    have hLK : L ≤ K := by
      have : bitLen n = K + 1 := hK1
      omega
    have : 2 ^ L ≤ 2 ^ K := Nat.pow_le_pow_right (by norm_num) hLK
    omega

theorem roundSig_err (N : Nat) (h : N < 2 ^ 128) :
    roundSig N ≤ N + 2 ^ bitLen N / 2 ^ 54 ∧ N ≤ roundSig N + 2 ^ bitLen N / 2 ^ 54 := by
  simp only [roundSig]
  by_cases hL : bitLen N ≤ 53
  · rw [if_pos hL]
    exact ⟨Nat.le_add_right _ _, Nat.le_add_right _ _⟩
  · rw [if_neg hL]
    set k := bitLen N - 53 with hk
    have hk1 : 1 ≤ k := by omega
    have hq : N / 2 ^ k * 2 ^ k + N % 2 ^ k = N := by
      rw [Nat.mul_comm]
      exact Nat.div_add_mod N (2 ^ k)
    have hr : N % 2 ^ k < 2 ^ k := Nat.mod_lt _ (by positivity)
    have hhalf : 2 ^ (k - 1) * 2 = 2 ^ k := by
      have h1 : k - 1 + 1 = k := by omega
      calc 2 ^ (k - 1) * 2 = 2 ^ (k - 1 + 1) := (pow_succ 2 (k - 1)).symm
      _ = 2 ^ k := by rw [h1]
    have hdiv : 2 ^ bitLen N / 2 ^ 54 = 2 ^ (bitLen N - 54) :=
      Nat.pow_div (by omega) (by norm_num)
    have heq : 2 ^ (k - 1) = 2 ^ (bitLen N - 54) := by
      have h1 : k - 1 = bitLen N - 54 := by omega
      rw [h1]
    have hsucc : (N / 2 ^ k + 1) * 2 ^ k = N / 2 ^ k * 2 ^ k + 2 ^ k := by ring
    split_ifs <;> omega

theorem roundSig_err66 (N : Nat) (h : N < 2 ^ 66) :
    roundSig N ≤ N + 4096 ∧ N ≤ roundSig N + 4096 := by
  have h128 : N < 2 ^ 128 := lt_of_lt_of_le h (by norm_num)
  have hb := roundSig_err N h128
  have hbl : bitLen N ≤ 66 := bitLen_le N 66 h (by norm_num)
  have hmono : 2 ^ bitLen N / 2 ^ 54 ≤ 2 ^ 66 / 2 ^ 54 :=
    Nat.div_le_div_right (Nat.pow_le_pow_right (by norm_num) hbl)
  have : (2 : Nat) ^ 66 / 2 ^ 54 = 4096 := by norm_num
  omega

theorem roundSig_err67 (N : Nat) (h : N < 2 ^ 67) :
    roundSig N ≤ N + 8192 ∧ N ≤ roundSig N + 8192 := by
  have h128 : N < 2 ^ 128 := lt_of_lt_of_le h (by norm_num)
  have hb := roundSig_err N h128
  have hbl : bitLen N ≤ 67 := bitLen_le N 67 h (by norm_num)
  have hmono : 2 ^ bitLen N / 2 ^ 54 ≤ 2 ^ 67 / 2 ^ 54 :=
    Nat.div_le_div_right (Nat.pow_le_pow_right (by norm_num) hbl)
  have : (2 : Nat) ^ 67 / 2 ^ 54 = 8192 := by norm_num
  omega

theorem scoreBlend_props (h s : Nat) (hh : h ≤ 100) (hs : s ≤ 100) :
    scoreBlend h s ≤ 100 ∧
      (scoreBlend h s = (4 * h + 6 * s) / 10 ∨
        scoreBlend h s + 1 = (4 * h + 6 * s) / 10) := by
  have hx : 5 * (w04 * h) = 2305843009213694080 * h := by
    rw [w04]; ring
  have hy : 5 * (w06 * s) = 3458764513820540800 * s := by
    rw [w06]; ring
  have hxb : w04 * h ≤ 46116860184273881600 := by
    calc w04 * h ≤ w04 * 100 := Nat.mul_le_mul_left _ hh
    _ = 46116860184273881600 := by norm_num [w04]
  have hyb : w06 * s ≤ 69175290276410816000 := by
    calc w06 * s ≤ w06 * 100 := Nat.mul_le_mul_left _ hs
    _ = 69175290276410816000 := by norm_num [w06]
  have e1 := roundSig_err66 (w04 * h) (by norm_num; omega)
  have e2 := roundSig_err67 (w06 * s) (by norm_num; omega)
  have e3 := roundSig_err67 (roundSig (w04 * h) + roundSig (w06 * s)) (by norm_num; omega)
  simp only [scoreBlend]
  norm_num
  omega

/-- C8: the heuristic scorer is a pure, deterministic function of text and
profile — same inputs give the same score — and its output lies in [0,100];
it is a total Lean function of its two arguments, so it reads no hidden
state and makes no external calls. -/
theorem claim_heuristic_pure_range :
    ∀ (bv : BrandVoice) (script : List Char),
      heuristic_check bv script = heuristic_check bv script ∧
      0 ≤ heuristic_check bv script ∧ heuristic_check bv script ≤ 100 :=
  fun bv script => ⟨rfl, heuristic_check_nonneg bv script, heuristic_check_le bv script⟩

/-- C2: for every score in [0,100] and iteration, the refinement decision
computed at the Validate step is true exactly when the score is below 75 and
the iteration below 2, and it is false at score 75 (passing boundary is
inclusive). -/
theorem claim_refine_decision :
    ∀ (score iteration : Nat), score ≤ 100 →
      ((shouldRefineFlag score iteration = true ↔ (score < 75 ∧ iteration < 2)) ∧
        shouldRefineFlag 75 iteration = false) := by
  intro score iteration hs
  constructor
  · simp [shouldRefineFlag]
  · simp [shouldRefineFlag]

/-- Witness for C2 at score 74, iteration 0. -/
theorem claim_refine_decision_witness :
    (74 : Nat) ≤ 100 ∧
      ((shouldRefineFlag 74 0 = true ↔ (74 < 75 ∧ 0 < 2)) ∧
        shouldRefineFlag 75 0 = false) :=
  ⟨by norm_num, claim_refine_decision 74 0 (by norm_num)⟩

/-- C10: on the empty candidate list, topic selection does not fail and does
not call the generation collaborator: it returns the fixed default topic,
whatever the collaborator would have replied. -/
theorem claim_default_topic :
    ∀ e : ScoutEnv,
      select_best_topic e [] =
        (.ok "The Latest JavaScript Framework Nobody Asked For", false) :=
  fun _ => rfl

/-- C9: every successful research result carries an empty sources list, and
after a successful Scout step the run state's `research_sources` equals the
sources of the research result, hence the empty list. -/
theorem claim_sources_empty :
    (∀ (e : ScoutEnv) (topic : Option String) (r : ResearchResult),
        research_topic e topic = .ok r → r.sources = []) ∧
    (∀ (env : RunEnv) (t : Option String) (f : String) (r : ResearchResult),
        env.research = .ok r →
        (step env (initConfig t f)).st.research_sources = some r.sources) := by
  constructor
  · intro e topic r h
    simp only [research_topic] at h
    repeat' split at h
    all_goals (first | exact Except.noConfusion h | (injection h with h1; subst h1; rfl))
  · intro env t f r h
    rw [step_eq_scout env (initConfig t f) rfl]
    simp [scout_node, h]

/-- The research result delivered by the timed-out-fetch scout. -/
theorem claim_sources_empty_witness :
    (⟨"Cached Topic", "some brief", [], "live"⟩ : ResearchResult).sources = [] ∧
    (step envTimeout (initConfig none "100_seconds")).st.research_sources =
      some (⟨"Cached Topic", "some brief", [], "live"⟩ : ResearchResult).sources :=
  ⟨claim_sources_empty.1 scTimeout none _ rfl,
    claim_sources_empty.2 envTimeout none "100_seconds" _ rfl⟩

set_option maxRecDepth 40000 in
/-- C4 counterexample: on a text punctuated only with exclamation marks the
source heuristic (splitting on periods only) scores 60, while the claimed
algorithm (splitting on sentence-terminal punctuation) scores 80. -/
theorem claim_heuristic_split_counterexample :
    heuristic_check bvEmpty textBang = 60 ∧
    heuristicAlg sentenceEnd bvEmpty textBang = 80 ∧
    heuristic_check bvEmpty textBang ≠ heuristicAlg sentenceEnd bvEmpty textBang := by
  have h1 : heuristic_check bvEmpty textBang = 60 := by decide
  have h2 : heuristicAlgInt sentenceEnd bvEmpty textBang = 80 := by decide
  have h3 := heuristicAlg_eq_int sentenceEnd bvEmpty textBang
  exact ⟨h1, by rw [h3, h2], by rw [h1, h3, h2]; norm_num⟩

set_option maxRecDepth 40000 in
/-- C4 amended: the heuristic score is computed by the claimed algorithm with
the sentence split taken on the period character only; in particular the
3-sentence, 10-words-per-sentence text with two matching signature phrases
and no avoided terms scores 90. -/
theorem claim_heuristic_amended :
    (∀ (bv : BrandVoice) (script : List Char),
        heuristic_check bv script = heuristicAlg (fun c => c = '.') bv script) ∧
    heuristic_check bvScenA textScenA = 90 := by
  constructor
  · intro bv script
    rw [heuristicAlg_eq_int]
    rfl
  · decide

/-- C3 counterexample: at heuristic 1 and semantic 6 the exact blend is 4.0,
whose floor is 4, but the double-precision evaluation the code performs
yields 3.9999999999999996, which `int` truncates to 3. -/
theorem claim_blend_counterexample :
    scoreBlend 1 6 = 3 ∧ (4 * 1 + 6 * 6) / 10 = 4 ∧
      scoreBlend 1 6 ≠ (4 * 1 + 6 * 6) / 10 := by
  refine ⟨by decide, by decide, by decide⟩

/-- C3 amended: the Validate step blends exactly by the double-precision
evaluation of 0.4·h + 0.6·s truncated to an integer; for h, s in [0,100]
this lies in [0,100] and equals floor((4h+6s)/10) or that floor minus one. -/
theorem claim_blend_amended :
    (∀ (bv : BrandVoice) (script : List Char) (sem : BrandScoreResponse),
        (validate_script bv script sem).score =
          scoreBlend (heuristic_check bv script).toNat sem.score) ∧
    (∀ h s : Nat, h ≤ 100 → s ≤ 100 →
      scoreBlend h s ≤ 100 ∧
        (scoreBlend h s = (4 * h + 6 * s) / 10 ∨
          scoreBlend h s + 1 = (4 * h + 6 * s) / 10)) :=
  ⟨fun _ _ _ => rfl, scoreBlend_props⟩

/-- Witness for C3 at heuristic 90 and semantic 60: the blend is 72. -/
theorem claim_blend_amended_witness :
    (90 : Nat) ≤ 100 ∧ (60 : Nat) ≤ 100 ∧
      (scoreBlend 90 60 ≤ 100 ∧
        (scoreBlend 90 60 = (4 * 90 + 6 * 60) / 10 ∨
          scoreBlend 90 60 + 1 = (4 * 90 + 6 * 60) / 10)) :=
  ⟨by norm_num, by norm_num, claim_blend_amended.2 90 60 (by norm_num) (by norm_num)⟩

theorem run_workflow_done (env : RunEnv) (t : Option String) (f : String)
    (h : (iterN env 8 (initConfig t f)).phase = .done) :
    run_workflow env t f =
      { (iterN env 8 (initConfig t f)).st with
        final_script := (iterN env 8 (initConfig t f)).st.draft_script } := by
  simp only [run_workflow, h]

theorem run_workflow_failed (env : RunEnv) (t : Option String) (f : String)
    (h : (iterN env 8 (initConfig t f)).phase = .failed) :
    run_workflow env t f =
      { (iterN env 8 (initConfig t f)).st with
        final_script := none
        errors := (iterN env 8 (initConfig t f)).st.errors ++
          ["Workflow fatal error: " ++ (iterN env 8 (initConfig t f)).raised.getD ""] } := by
  simp only [run_workflow, h]

/-- C1: in any run, under any collaborator behaviour, the iteration counter
never exceeds the refinement cap of 2, it equals the number of Refine
executions at every point (each Refine increments it exactly once, at entry
and hence before that iteration's regeneration call), and Refine is only
ever entered with the counter strictly below the cap, so the cap check at
the next Validate sees the post-increment value. -/
theorem claim_iteration_cap :
    ∀ (env : RunEnv) (t : Option String) (f : String) (n : Nat),
      (iterN env n (initConfig t f)).st.iteration ≤ 2 ∧
      (iterN env n (initConfig t f)).refineExecs =
        (iterN env n (initConfig t f)).st.iteration ∧
      ((iterN env n (initConfig t f)).phase = .refine →
        (iterN env n (initConfig t f)).st.iteration < 2) := by
  intro env t f n
  obtain ⟨h1, h2, h3, _⟩ := iterN_inv env n (initConfig t f) (initConfig_inv t f)
  exact ⟨h1, h2, h3⟩

/-- Witness for C1 on the all-success collaborators after the full run. -/
theorem claim_iteration_cap_witness :
    (iterN envOk 8 (initConfig (some "T") "100_seconds")).st.iteration ≤ 2 ∧
    (iterN envOk 8 (initConfig (some "T") "100_seconds")).refineExecs =
      (iterN envOk 8 (initConfig (some "T") "100_seconds")).st.iteration :=
  ⟨(claim_iteration_cap envOk (some "T") "100_seconds" 8).1,
    (claim_iteration_cap envOk (some "T") "100_seconds" 8).2.1⟩

/-- C5: the returned `final_script` is set (non-none and non-empty) exactly
when the engine reaches `done` — which only happens with a truthy draft —
and on the error path `final_script` stays unset while the errors list is
non-empty. -/
theorem claim_final_iff_done :
    ∀ (env : RunEnv) (t : Option String) (f : String),
      (((run_workflow env t f).final_script ≠ none ∧
          (run_workflow env t f).final_script ≠ some "") ↔
        ((iterN env 8 (initConfig t f)).phase = .done ∧
          (iterN env 8 (initConfig t f)).st.draft_script ≠ none ∧
          (iterN env 8 (initConfig t f)).st.draft_script ≠ some "")) ∧
      ((iterN env 8 (initConfig t f)).phase = .failed →
        (run_workflow env t f).final_script = none ∧
          (run_workflow env t f).errors ≠ []) := by
  intro env t f
  have hterm := iterN_eight_terminal env t f
  have hinv := iterN_inv env 8 (initConfig t f) (initConfig_inv t f)
  rcases hterm with hd | hf
  · obtain ⟨hn, he⟩ := hinv.2.2.2 hd
    rw [run_workflow_done env t f hd]
    constructor
    · simp [hd, hn, he]
    · intro hcon
      rw [hd] at hcon
      cases hcon
  · rw [run_workflow_failed env t f hf]
    constructor
    · simp [hf]
    · intro _
      simp

set_option maxRecDepth 40000 in
/-- Witness for C5: the all-success run ends `done` with a set final
script. -/
theorem claim_final_iff_done_witness :
    (run_workflow envOk (some "T") "100_seconds").final_script ≠ none ∧
    (run_workflow envOk (some "T") "100_seconds").final_script ≠ some "" :=
  (claim_final_iff_done envOk (some "T") "100_seconds").1.mpr
    ⟨by decide, by decide, by decide⟩

set_option maxRecDepth 40000 in
/-- C6 counterexample: when the research collaborator returns an empty
brief, the Scout step does not fail and records no error: it stores the
empty brief and hands over to Draft. -/
theorem claim_scout_empty_brief_counterexample :
    (step envEmptyBrief (initConfig (some "T") "100_seconds")).phase = .draft ∧
    (step envEmptyBrief (initConfig (some "T") "100_seconds")).st.errors = [] ∧
    (step envEmptyBrief (initConfig (some "T") "100_seconds")).st.research_brief = some "" :=
  ⟨by decide, by decide, by decide⟩

/-- C6 amended: when the research collaborator returns an empty brief the
Scout step succeeds; the missing input is detected at the Draft step, which
records a `Writer error` before any generation call and terminates the run
on the error path with `final_script` unset and non-empty errors. -/
theorem claim_empty_brief_amended :
    ∀ (env : RunEnv) (t : Option String) (f : String) (r : ResearchResult),
      env.research = .ok r → r.brief = "" →
      (iterN env 8 (initConfig t f)).phase = .failed ∧
      (iterN env 8 (initConfig t f)).genCalls = 0 ∧
      (iterN env 8 (initConfig t f)).st.errors =
        ["Writer error: No research brief available for script generation"] ∧
      (run_workflow env t f).final_script = none ∧
      (run_workflow env t f).errors ≠ [] := by
  intro env t f r hr hb
  have h1 : step env (initConfig t f) =
      { phase := .draft
        st := { topic := some r.topic, format_type := f, research_brief := some ""
                research_sources := some r.sources, draft_script := none, brand_score := none
                heuristic_score := none, llm_score := none, validation_reasoning := none
                validation_strengths := none, validation_weaknesses := none
                validation_suggestions := none, final_script := none, iteration := 0
                should_refine := false, errors := [], execution_mode := r.mode }
        genCalls := 0, valCalls := 0, refineExecs := 0, raised := none } := by
    rw [step_eq_scout env _ rfl]
    simp [scout_node, hr, hb, initConfig, initState]
  have h2 : step env
      { phase := .draft
        st := { topic := some r.topic, format_type := f, research_brief := some ""
                research_sources := some r.sources, draft_script := none, brand_score := none
                heuristic_score := none, llm_score := none, validation_reasoning := none
                validation_strengths := none, validation_weaknesses := none
                validation_suggestions := none, final_script := none, iteration := 0
                should_refine := false, errors := [], execution_mode := r.mode }
        genCalls := 0, valCalls := 0, refineExecs := 0, raised := none } =
      { phase := .failed
        st := { topic := some r.topic, format_type := f, research_brief := some ""
                research_sources := some r.sources, draft_script := none, brand_score := none
                heuristic_score := none, llm_score := none, validation_reasoning := none
                validation_strengths := none, validation_weaknesses := none
                validation_suggestions := none, final_script := none, iteration := 0
                should_refine := false
                errors := ["Writer error: No research brief available for script generation"]
                execution_mode := r.mode }
        genCalls := 0, valCalls := 0, refineExecs := 0
        raised := some "No research brief available for script generation" } := by
    rw [step_eq_draft env _ rfl]
    simp [draft_node, falsyOpt, failWith]
  have h8 : iterN env 8 (initConfig t f) =
      { phase := .failed
        st := { topic := some r.topic, format_type := f, research_brief := some ""
                research_sources := some r.sources, draft_script := none, brand_score := none
                heuristic_score := none, llm_score := none, validation_reasoning := none
                validation_strengths := none, validation_weaknesses := none
                validation_suggestions := none, final_script := none, iteration := 0
                should_refine := false
                errors := ["Writer error: No research brief available for script generation"]
                execution_mode := r.mode }
        genCalls := 0, valCalls := 0, refineExecs := 0
        raised := some "No research brief available for script generation" } := by
    have hsplit : iterN env 8 (initConfig t f) =
        iterN env 6 (step env (step env (initConfig t f))) := rfl
    rw [hsplit, h1, h2, iterN_terminal_fix env 6 _ (Or.inr rfl)]
  have hfail : (iterN env 8 (initConfig t f)).phase = .failed := by rw [h8]
  refine ⟨hfail, by rw [h8], by rw [h8], ?_, ?_⟩
  · rw [run_workflow_failed env t f hfail]
  · rw [run_workflow_failed env t f hfail]
    simp

/-- Witness for C6 on the concrete empty-brief collaborators. -/
theorem claim_empty_brief_amended_witness :
    (run_workflow envEmptyBrief (some "T") "100_seconds").final_script = none ∧
    (run_workflow envEmptyBrief (some "T") "100_seconds").errors ≠ [] :=
  have h := claim_empty_brief_amended envEmptyBrief (some "T") "100_seconds"
    ⟨"T", "", [], "live"⟩ rfl rfl
  ⟨h.2.2.2.1, h.2.2.2.2⟩

set_option maxRecDepth 40000 in
/-- C7 counterexample: with no topic given and a timed-out candidate fetch
in live mode, Scout completes without errors using the fallback, but the
recorded execution mode is "live", not "cached". -/
theorem claim_mode_counterexample :
    (step envTimeout (initConfig none "100_seconds")).phase = .draft ∧
    (step envTimeout (initConfig none "100_seconds")).st.errors = [] ∧
    (step envTimeout (initConfig none "100_seconds")).st.execution_mode = "live" ∧
    (step envTimeout (initConfig none "100_seconds")).st.execution_mode ≠ "cached" :=
  ⟨by decide, by decide, by decide, by decide⟩

/-- C7 amended: with no topic and a timed-out candidate fetch, Scout still
completes successfully using the cached fallback list and adds no error,
but the execution mode is reported as "live"; "cached" is reported only in
demo mode. -/
theorem claim_timeout_fallback_amended :
    ∀ (e : ScoutEnv) (l : List HNItem) (resp brief : String),
      e.demo_mode = false → e.fetch = .timeout → e.cached = .ok l →
      e.selectResp = .ok resp → e.briefResp = .ok brief →
      (research_topic e none =
        .ok { topic := if l.isEmpty then "The Latest JavaScript Framework Nobody Asked For"
                       else pyStripS resp
              brief := brief, sources := [], mode := "live" }) ∧
      ∀ (gen : Nat → String → String → Except String String)
        (sem : Nat → String → Except String BrandScoreResponse)
        (bv : BrandVoice) (f : String),
        (step { research := research_topic e none, generate := gen,
                semantic := sem, brand_voice := bv } (initConfig none f)).phase = .draft ∧
        (step { research := research_topic e none, generate := gen,
                semantic := sem, brand_voice := bv } (initConfig none f)).st.errors = [] ∧
        (step { research := research_topic e none, generate := gen,
                semantic := sem, brand_voice := bv } (initConfig none f)).st.execution_mode =
          "live" := by
  intro e l resp brief hd hf hc hs hb
  have hres : research_topic e none =
      .ok { topic := if l.isEmpty then "The Latest JavaScript Framework Nobody Asked For"
                     else pyStripS resp
            brief := brief, sources := [], mode := "live" } := by
    cases l with
    | nil => simp [research_topic, get_trending_safe, select_best_topic, hd, hf, hc, hs, hb]
    | cons a as =>
      simp [research_topic, get_trending_safe, select_best_topic, Except.map, hd, hf, hc, hs, hb]
  refine ⟨hres, ?_⟩
  intro gen sem bv f
  rw [step_eq_scout _ _ rfl]
  exact ⟨by simp [scout_node, hres], by simp [scout_node, hres, initConfig, initState],
    by simp [scout_node, hres]⟩

set_option maxRecDepth 40000 in
/-- Witness for C7 on the concrete timed-out scout. -/
theorem claim_timeout_fallback_amended_witness :
    (research_topic scTimeout none =
      .ok { topic := if ([item1].isEmpty) then "The Latest JavaScript Framework Nobody Asked For"
                     else pyStripS "Cached Topic"
            brief := "some brief", sources := [], mode := "live" }) ∧
    (step envTimeout (initConfig none "100_seconds")).phase = .draft :=
  have h := claim_timeout_fallback_amended scTimeout [item1] "Cached Topic" "some brief"
    rfl rfl rfl rfl rfl
  ⟨h.1, (h.2 (fun _ _ _ => .ok "script text") (fun _ _ => .ok bsr80) bvEmpty "100_seconds").1⟩
